import Mathlib

/-!
Shallow embedding of web/webapi.py, the WSGI request/response layer of web.py:
header emission, cookie decoding, form-body decoding (urlencoded and
multipart), redirect construction, and the request-context operations
(rawinput, data, cookies) built on top of them.

Python strings are Lean `String`s, byte streams are `List Nat` (each entry a
byte value), dicts are association lists preserving insertion order, and
raised exceptions are `Except` errors of type `PyExc`.  All string
manipulation is done through the underlying `List Char`, so every definition
reduces inside the kernel.
-/

set_option autoImplicit false

namespace WebPy

/-- Python exception values that the embedded code can raise. -/
inductive PyExc where
  | keyError : PyExc
  | stopIteration : PyExc
  | indexError : PyExc
  | unicodeDecodeError : PyExc
  | valueError : String → PyExc
  | multipartError : String → PyExc
  | httpError : String → String → PyExc
  deriving DecidableEq

/-! ### String helpers (kernel-reducible models of the Python `str` methods) -/

/-- String equality via the underlying character lists. -/
def strEq (a b : String) : Bool := a.data == b.data

/-- Membership of a character in a string (the Python `c in s` test). -/
def containsC (s : String) (c : Char) : Bool := s.data.contains c

/-- Model of Python `str.lower` (ASCII letters only, which is all the callers use). -/
def toLowerS (s : String) : String := String.mk (s.data.map Char.toLower)

/-- Model of Python `str.upper` (ASCII letters only, which is all the callers use). -/
def toUpperS (s : String) : String := String.mk (s.data.map Char.toUpper)

/-- The characters Python `str.strip()` removes. -/
def isPySpace (c : Char) : Bool :=
  c == ' ' || c == '\t' || c == '\n' || c == '\r' || c == '\x0b' || c == '\x0c'

/-- Model of Python `str.strip()`. -/
def trimS (s : String) : String :=
  String.mk (((s.data.dropWhile isPySpace).reverse.dropWhile isPySpace).reverse)

/-- Does `s` start with `p` (Python `str.startswith`)? -/
def startsWithS (s p : String) : Bool := p.data.isPrefixOf s.data

/-- Membership of a string in a list of strings (the Python `x in [...]` test). -/
def memStr (l : List String) (s : String) : Bool := l.any (fun t => strEq t s)

/-- Split a character list at every occurrence of `c`; always returns at least
one piece, like Python `str.split(c)`. -/
def splitC (c : Char) : List Char → List (List Char)
  | [] => [[]]
  | x :: t =>
    if x == c then [] :: splitC c t
    else
      match splitC c t with
      | h :: r => (x :: h) :: r
      | [] => [[x]]

/-- Model of Python `str.split(c)` (single-character separator). -/
def splitS (c : Char) (s : String) : List String := (splitC c s.data).map String.mk

/-- Model of Python `str.split(c, 1)`: split at the first occurrence of `c`
only; `none` when `c` does not occur (the caller's two-element check fails). -/
def splitFirst (c : Char) : List Char → Option (List Char × List Char)
  | [] => none
  | x :: t =>
    if x == c then some ([], t)
    else (splitFirst c t).map (fun p => (x :: p.1, p.2))

/-- First value bound to key `k` in an association list (Python dict lookup,
insertion order preserved, keys unique by construction). -/
def assocFind {α : Type} (d : List (String × α)) (k : String) : Option α :=
  match d with
  | [] => none
  | p :: t => if strEq p.1 k then some p.2 else assocFind t k

/-- Python `d[k] = v` on a dict modelled as an association list: replace the
value in place when the key exists, otherwise append. -/
def insertOver (d : List (String × String)) (k v : String) : List (String × String) :=
  if (assocFind d k).isSome then
    d.map (fun p => if strEq p.1 k then (k, v) else p)
  else d ++ [(k, v)]

/-- Append `v` to the list bound to `k`, creating the binding at the end when
absent (the `defaultdict(list)` / `parse_qs` accumulation pattern). -/
def multiAdd {α : Type} (d : List (String × List α)) (k : String) (v : α) :
    List (String × List α) :=
  if (assocFind d k).isSome then
    d.map (fun p => if strEq p.1 k then (p.1, p.2 ++ [v]) else p)
  else d ++ [(k, [v])]

/-! ### Percent decoding and UTF-8 (models of `urllib.parse.unquote` and `bytes.decode`) -/

/-- Hexadecimal value of a character, if any. -/
def hexVal (c : Char) : Option Nat :=
  let n := c.toNat
  if 48 ≤ n && n ≤ 57 then some (n - 48)
  else if 97 ≤ n && n ≤ 102 then some (n - 87)
  else if 65 ≤ n && n ≤ 70 then some (n - 55)
  else none

/-- Is `b` a UTF-8 continuation byte? -/
def utf8Cont (b : Nat) : Bool := 128 ≤ b && b ≤ 191

/-- Strict UTF-8 decoding of a byte list (model of Python
`bytes.decode("utf-8")`): `none` exactly on ill-formed input.  Overlong
encodings, surrogates and values above U+10FFFF are rejected, as CPython
rejects them. -/
def utf8Decode : List Nat → Option (List Char)
  | [] => some []
  | b :: r =>
    if b ≤ 127 then
      match utf8Decode r with
      | some cs => some (Char.ofNat b :: cs)
      | none => none
    else if 194 ≤ b && b ≤ 223 then
      match r with
      | c1 :: r1 =>
        if utf8Cont c1 then
          match utf8Decode r1 with
          | some cs => some (Char.ofNat ((b - 192) * 64 + (c1 - 128)) :: cs)
          | none => none
        else none
      | [] => none
    else if 224 ≤ b && b ≤ 239 then
      match r with
      | c1 :: c2 :: r2 =>
        if utf8Cont c1 && utf8Cont c2 &&
            !(b == 224 && c1 < 160) && !(b == 237 && 160 ≤ c1) then
          match utf8Decode r2 with
          | some cs =>
            some (Char.ofNat ((b - 224) * 4096 + (c1 - 128) * 64 + (c2 - 128)) :: cs)
          | none => none
        else none
      | _ => none
    else if 240 ≤ b && b ≤ 244 then
      match r with
      | c1 :: c2 :: c3 :: r3 =>
        if utf8Cont c1 && utf8Cont c2 && utf8Cont c3 &&
            !(b == 240 && c1 < 144) && !(b == 244 && 143 < c1) then
          match utf8Decode r3 with
          | some cs =>
            some (Char.ofNat ((b - 240) * 262144 + (c1 - 128) * 4096 +
              (c2 - 128) * 64 + (c3 - 128)) :: cs)
          | none => none
        else none
      | _ => none
    else none

/-- Fuel-indexed body of `utf8Replace`; one unit of fuel is consumed per
decoded unit, and each unit consumes at least one byte, so fuel equal to the
list length never runs out. -/
def utf8ReplaceAux : Nat → List Nat → List Char
  | 0, _ => []
  | _, [] => []
  | fuel + 1, b :: r =>
    if b ≤ 127 then Char.ofNat b :: utf8ReplaceAux fuel r
    else if 194 ≤ b && b ≤ 223 then
      match r with
      | c1 :: r1 =>
        if utf8Cont c1 then
          Char.ofNat ((b - 192) * 64 + (c1 - 128)) :: utf8ReplaceAux fuel r1
        else Char.ofNat 65533 :: utf8ReplaceAux fuel r
      | [] => [Char.ofNat 65533]
    else if 224 ≤ b && b ≤ 239 then
      match r with
      | c1 :: c2 :: r2 =>
        if utf8Cont c1 && utf8Cont c2 &&
            !(b == 224 && c1 < 160) && !(b == 237 && 160 ≤ c1) then
          Char.ofNat ((b - 224) * 4096 + (c1 - 128) * 64 + (c2 - 128)) ::
            utf8ReplaceAux fuel r2
        else Char.ofNat 65533 :: utf8ReplaceAux fuel r
      | _ => Char.ofNat 65533 :: utf8ReplaceAux fuel r
    else if 240 ≤ b && b ≤ 244 then
      match r with
      | c1 :: c2 :: c3 :: r3 =>
        if utf8Cont c1 && utf8Cont c2 && utf8Cont c3 &&
            !(b == 240 && c1 < 144) && !(b == 244 && 143 < c1) then
          Char.ofNat ((b - 240) * 262144 + (c1 - 128) * 4096 +
            (c2 - 128) * 64 + (c3 - 128)) :: utf8ReplaceAux fuel r3
        else Char.ofNat 65533 :: utf8ReplaceAux fuel r
      | _ => Char.ofNat 65533 :: utf8ReplaceAux fuel r
    else Char.ofNat 65533 :: utf8ReplaceAux fuel r

/-- UTF-8 decoding with U+FFFD replacement (model of
`bytes.decode("utf-8", errors="replace")`, used by `unquote`).  Simplification
of CPython's maximal-subpart rule: each offending byte yields one replacement
character. -/
def utf8Replace (l : List Nat) : List Char := utf8ReplaceAux l.length l

/-- Scan for `%HH` escapes: a well-formed escape becomes a raw byte
(`Sum.inl`), everything else stays a literal character (`Sum.inr`).  Mirrors
how `urllib.parse.unquote` splits the input at every `%`. -/
def pctScan : List Char → List (Sum Nat Char)
  | [] => []
  | '%' :: h1 :: h2 :: rest =>
    match hexVal h1, hexVal h2 with
    | some a, some b => Sum.inl (a * 16 + b) :: pctScan rest
    | _, _ => Sum.inr '%' :: pctScan (h1 :: h2 :: rest)
  | c :: rest => Sum.inr c :: pctScan rest

/-- Reassemble `pctScan` output: maximal runs of decoded bytes are UTF-8
decoded with replacement, literal characters pass through.  `pend` holds the
current byte run in reverse. -/
def unquoteAux (pend : List Nat) : List (Sum Nat Char) → List Char
  | [] => utf8Replace pend.reverse
  | Sum.inl b :: rest => unquoteAux (b :: pend) rest
  | Sum.inr c :: rest => utf8Replace pend.reverse ++ (c :: unquoteAux [] rest)

/-- Model of `urllib.parse.unquote` with its defaults (UTF-8, replacement on
ill-formed percent-encoded bytes; `+` is left alone). -/
def unquote (s : String) : String := String.mk (unquoteAux [] (pctScan s.data))

/-! ### Cookie decoding (`parse_cookies`) -/

/-- Octal digit value, if any (for `http.cookies` backslash escapes). -/
def octVal (c : Char) : Option Nat :=
  let n := c.toNat
  if 48 ≤ n && n ≤ 55 then some (n - 48) else none

/-- Backslash unescaping applied by `http.cookies` to quoted cookie values:
`\ooo` (three octal digits) becomes the coded character, `\c` becomes `c`. -/
def cookieUnescape : List Char → List Char
  | [] => []
  | '\\' :: a :: b :: c :: rest =>
    match octVal a, octVal b, octVal c with
    | some x, some y, some z => Char.ofNat (x * 64 + y * 8 + z) :: cookieUnescape rest
    | _, _, _ => a :: cookieUnescape (b :: c :: rest)
  | '\\' :: a :: rest => a :: cookieUnescape rest
  | x :: rest => x :: cookieUnescape rest

/-- Split a cookie header at `;` occurring outside double quotes (`q` tracks
whether the scan is inside a quoted span; backslash escapes are skipped). -/
def splitSemiQuoted : List Char → Bool → List (List Char)
  | [], _ => [[]]
  | ';' :: t, false => [] :: splitSemiQuoted t false
  | '\\' :: a :: t, true =>
    (match splitSemiQuoted t true with
     | h :: r => ('\\' :: a :: h) :: r
     | [] => [['\\', a]])
  | '"' :: t, q =>
    (match splitSemiQuoted t (!q) with
     | h :: r => ('"' :: h) :: r
     | [] => [['"']])
  | x :: t, q =>
    (match splitSemiQuoted t q with
     | h :: r => (x :: h) :: r
     | [] => [[x]])

/-- Is the (trimmed) value wrapped in double quotes? -/
def isQuotedVal (v : List Char) : Bool :=
  match v with
  | '"' :: _ :: _ => v.getLast? == some '"'
  | _ => false

/-- Interface model of the `http.cookies.SimpleCookie` branch of
`parse_cookies` (the input contains a double quote): split at unquoted `;`,
take `key=value` pairs, strip both sides, unwrap and backslash-unescape quoted
values, then percent-decode, discarding segments that do not parse.  The
attribute bookkeeping of `SimpleCookie` (reserved names such as `path`) is not
modelled; no claim depends on this branch. -/
def simpleCookieModel (http_cookie : String) : List (String × String) :=
  (splitSemiQuoted http_cookie.data false).foldl
    (fun d seg =>
      match splitFirst '=' seg with
      | some (k, v) =>
        let key := trimS (String.mk k)
        let vt := (trimS (String.mk v)).data
        let value := if isQuotedVal vt then cookieUnescape (vt.drop 1).dropLast else vt
        if strEq key "" then d else insertOver d key (unquote (String.mk value))
      | none => d) []

/-- Translation of `parse_cookies` (webapi.py lines 644-694): quote-free
headers take the fast path — split on `;`, split each segment at the first
`=`, drop segments without `=`, strip both key and value, percent-decode the
value; headers containing a quote go through the `SimpleCookie` model. -/
def parse_cookies (http_cookie : String) : List (String × String) :=
  if containsC http_cookie '"' then
    simpleCookieModel http_cookie
  else
    (splitS ';' http_cookie).foldl
      (fun d seg =>
        match splitFirst '=' seg.data with
        | some (k, v) => insertOver d (trimS (String.mk k)) (unquote (trimS (String.mk v)))
        | none => d) []

/-- The fast path as the claim words it: whitespace is trimmed from the key
only, and the value is percent-decoded with its whitespace preserved. -/
def parseCookiesClaimed (s : String) : List (String × String) :=
  ((splitS ';' s).filterMap
      (fun seg => (splitFirst '=' seg.data).map
        (fun kv => (trimS (String.mk kv.1), unquote (String.mk kv.2))))).foldl
    (fun d p => insertOver d p.1 p.2) []

/-- The fast path as amended: both key and value are whitespace-trimmed before
percent-decoding (so percent-encoded whitespace in the value survives). -/
def parseCookiesFastSpec (s : String) : List (String × String) :=
  ((splitS ';' s).filterMap
      (fun seg => (splitFirst '=' seg.data).map
        (fun kv => (trimS (String.mk kv.1), unquote (trimS (String.mk kv.2)))))).foldl
    (fun d p => insertOver d p.1 p.2) []

/-! ### Query-string decoding (model of `urllib.parse.parse_qs`) -/

/-- Model of Python `int(str)`: optional surrounding whitespace, optional
sign, decimal digits (`none` on anything else; underscore grouping is not
modelled). -/
def digitsVal : List Char → Option Nat
  | [] => none
  | l => l.foldl
      (fun acc c =>
        match acc with
        | none => none
        | some n =>
          let d := c.toNat
          if 48 ≤ d && d ≤ 57 then some (n * 10 + (d - 48)) else none)
      (some 0)

/-- Model of Python `int(str)` returning `none` where CPython raises
`ValueError`. -/
def pyInt (s : String) : Option Int :=
  let l := ((s.data.dropWhile isPySpace).reverse.dropWhile isPySpace).reverse
  match l with
  | '-' :: t => (digitsVal t).map (fun n => -(n : Int))
  | '+' :: t => (digitsVal t).map (fun n => (n : Int))
  | t => (digitsVal t).map (fun n => (n : Int))

/-- `+` becomes a space before percent-decoding, as in `parse_qsl`. -/
def plusToSpace (l : List Char) : List Char :=
  l.map (fun c => if c == '+' then ' ' else c)

/-- Model of `urllib.parse.parse_qsl` with `keep_blank_values=True` (the only
configuration webapi.py uses): split on `&`, drop empty segments, a segment
without `=` keeps a blank value, `+` and percent escapes decode in both the
name and the value. -/
def parse_qsl (qs : String) : List (String × String) :=
  (splitC '&' qs.data).foldl
    (fun acc seg =>
      match seg with
      | [] => acc
      | _ =>
        match splitFirst '=' seg with
        | some (n, v) =>
          acc ++ [(unquote (String.mk (plusToSpace n)), unquote (String.mk (plusToSpace v)))]
        | none => acc ++ [(unquote (String.mk (plusToSpace seg)), "")])
    []

/-- Model of `urllib.parse.parse_qs` (with `keep_blank_values=True`): group
the `parse_qsl` pairs by name, preserving the order of first occurrence and
the submission order of the values. -/
def parse_qs (qs : String) : List (String × List String) :=
  (parse_qsl qs).foldl (fun d p => multiAdd d p.1 p.2) []

/-! ### Data model: environment, context, multipart parts, field values -/

/-- The WSGI environment keys webapi.py consumes.  `REQUEST_METHOD` is
guaranteed by the WSGI specification; the remaining keys are read with
`env.get` and so are optional.  `wsgiInput` is the request body byte
stream. -/
structure Environ where
  requestMethod : String
  contentType : Option String := none
  contentLength : Option String := none
  queryString : Option String := none
  httpCookie : Option String := none
  transferEncoding : Option String := none
  wsgiInput : List Nat := []
  deriving DecidableEq

/-- One part produced by the external `multipart` library's parser: field
name, optional filename, raw byte payload. -/
structure MultipartPartV where
  name : String
  filename : Option String
  content : List Nat
  deriving DecidableEq

/-- Translation of `MultipartPartWrapper`: forwards everything to the wrapped
part but makes the value accessor return the raw bytes. -/
structure MultipartPartWrapperV where
  part : MultipartPartV
  deriving DecidableEq

/-- The raw-bytes value accessor the wrapper substitutes for `.value`. -/
def MultipartPartWrapperV.value (w : MultipartPartWrapperV) : List Nat := w.part.content

/-- A decoded field collection value after scalar collapse: a single
submitted value is a scalar, zero or two-or-more stay a sequence. -/
inductive Flat (α : Type) where
  | scalar : α → Flat α
  | many : List α → Flat α
  deriving DecidableEq

/-- A value of the merged field mapping `rawinput` returns: text fields from
urlencoded or multipart bodies, file parts from multipart bodies. -/
inductive FieldEntry where
  | str : String → FieldEntry
  | strs : List String → FieldEntry
  | file : MultipartPartWrapperV → FieldEntry
  | files : List MultipartPartWrapperV → FieldEntry
  deriving DecidableEq

/-- The merged field mapping (Python dict keyed by field name). -/
abbrev FieldMap : Type := List (String × FieldEntry)

/-- The per-request context `ctx`: the pieces of web.py's threaded context
object that webapi.py reads and writes. -/
structure Ctx where
  env : Environ
  path : String := ""
  home : String := ""
  realhome : String := ""
  status : String := "200 OK"
  headers : List (String × String) := []
  fieldstorage : Option FieldMap := none
  parsedCookies : Option (List (String × String)) := none
  cachedData : Option (List Nat) := none
  deriving DecidableEq

/-- The data an `HTTPError` exception instance carries besides its context
side effects (status line and body text). -/
structure HTTPErrorSig where
  status : String
  body : String
  deriving DecidableEq

/-! ### Helpers from web/utils.py (not present under src/), modelled from the spec -/

/-- Modelled from the spec: `safestr` from web.utils, absent from src/ —
"converts name/value to their transport string form"; on `str` inputs it is
the identity. -/
def safestr (s : String) : String := s

/-- Modelled from the spec: `dictadd` from web.utils, absent from src/ — the
dict-update merge in which entries of the second mapping "take precedence on
key collisions"; keys of the first mapping keep their position, new keys of
the second are appended in order. -/
def dictadd {α : Type} (d1 d2 : List (String × α)) : List (String × α) :=
  d1.map (fun p =>
    match assocFind d2 p.1 with
    | some v => (p.1, v)
    | none => p) ++
  d2.filter (fun p => (assocFind d1 p.1).isNone)

/-- Modelled from the spec: `intget` from web.utils, absent from src/ —
"missing/invalid length treated as 0": parse an integer, falling back to the
default. -/
def intget (s : Option String) (dflt : Int) : Int :=
  match s with
  | none => dflt
  | some str => (pyInt str).getD dflt

/-- Modelled from the spec: `storify` from web.utils, absent from src/ — "for
each name in `requiredNames` fails with `MissingFieldError` (a `KeyError`) if
absent; for each name in `defaults` substitutes the given default if
absent". -/
def storify (m : List (String × String)) (requireds : List String)
    (defaults : List (String × String)) : Except PyExc (List (String × String)) :=
  match requireds.find? (fun r => (assocFind m r).isNone) with
  | some _ => Except.error PyExc.keyError
  | none => Except.ok (m ++ defaults.filter (fun kv => (assocFind m kv.1).isNone))

/-! ### Header emission and the HTTP-outcome constructors -/

/-- Translation of `header` (webapi.py lines 396-412): reject any name or
value containing CR or LF before anything else; with `unique` set, an
existing header of the same name (case-insensitively) makes the call a no-op;
otherwise append to the outbound sequence. -/
def header (ctx : Ctx) (hdr value : String) (unique : Bool) : Except PyExc Ctx :=
  let hdr := safestr hdr
  let value := safestr value
  if containsC hdr '\n' || containsC hdr '\r' ||
      containsC value '\n' || containsC value '\r' then
    Except.error (PyExc.valueError "invalid characters in header")
  else if unique && ctx.headers.any (fun p => strEq (toLowerS p.1) (toLowerS hdr)) then
    Except.ok ctx
  else
    Except.ok { ctx with headers := ctx.headers ++ [(hdr, value)] }

/-- Translation of `HTTPError.__init__`: set the context status line, emit
every header in order (a CR/LF in one of them propagates the `ValueError`
from `header`), and carry the body. -/
def HTTPError_init (ctx : Ctx) (status : String) (headers : List (String × String))
    (dta : String) : Except PyExc (Ctx × HTTPErrorSig) :=
  let ctx := { ctx with status := status }
  (headers.foldlM (fun c kv => header c kv.1 kv.2 false) ctx).map
    (fun c => (c, ⟨status, dta⟩))

/-- Translation of `BadRequest.__init__` (the `badrequest()` constructor). -/
def badrequest_mk (ctx : Ctx) (message : Option String) : Except PyExc (Ctx × HTTPErrorSig) :=
  HTTPError_init ctx "400 Bad Request" [("Content-Type", "text/html")]
    (message.getD "bad request")

/-! ### URL joining (model of `urllib.parse.urljoin`) and `Redirect` -/

/-- Does `u` start with a URI scheme (a letter followed by letters, digits,
`+`, `-` or `.`, then a colon)? -/
def schemeChars : List Char → Bool
  | [] => false
  | ':' :: _ => true
  | c :: t =>
    (c.isAlpha || c.isDigit || c == '+' || c == '-' || c == '.') && schemeChars t

/-- Scheme detection for `urljoin`. -/
def hasScheme (u : String) : Bool :=
  match u.data with
  | [] => false
  | c :: t => c.isAlpha && schemeChars t

/-- Drop the last element of a list (Python `del parts[-1]`). -/
def dropLastL {α : Type} (l : List α) : List α := l.dropLast

/-- The dot-segment resolution loop of CPython's `urljoin`. -/
def resolveSegs (segs : List String) : List String :=
  segs.foldl
    (fun acc seg =>
      if strEq seg ".." then acc.dropLast
      else if strEq seg "." then acc
      else acc ++ [seg])
    []

/-- Join a list of strings with `/` (Python `"/".join`). -/
def joinSlash (l : List String) : String :=
  match l with
  | [] => ""
  | h :: t => t.foldl (fun acc s => acc ++ "/" ++ s) h

/-- Model of `urllib.parse.urljoin`, restricted to the shapes `Redirect`
feeds it: a path-only base (the request path) and a target that is either an
absolute URL (returned unchanged, as for schemes outside `uses_relative`), a
network-path or absolute-path reference, or a relative path.  Query and
fragment components of the target are treated as part of its last path
segment; dot segments are resolved as CPython does. -/
def urljoin (base url : String) : String :=
  if strEq url "" then base
  else if hasScheme url then url
  else if startsWithS url "//" then url
  else if strEq base "" then url
  else
    let useg := splitS '/' url
    let segments :=
      if startsWithS url "/" then useg
      else
        let merged := dropLastL (splitS '/' base) ++ useg
        match merged with
        | [] => []
        | h :: t => h :: (dropLastL t).filter (fun s => !(strEq s "")) ++
            (match t.getLast? with
             | some last => [last]
             | none => [])
    let resolved := resolveSegs segments
    let resolved :=
      match segments.getLast? with
      | some last => if strEq last "." || strEq last ".." then resolved ++ [""] else resolved
      | none => resolved
    let joined := joinSlash resolved
    if strEq joined "" then "/" else joined

/-- Translation of `Redirect.__init__` (webapi.py lines 126-148): join the
target against the current request path; when the joined location starts with
`/`, prepend `ctx.realhome` (absolute requested) or `ctx.home`; then run
`HTTPError.__init__` with the Content-Type and Location headers. -/
def Redirect_mk (ctx : Ctx) (url : String) (status : String) (absolute : Bool) :
    Except PyExc (Ctx × HTTPErrorSig) :=
  let newloc := urljoin ctx.path url
  let newloc :=
    if startsWithS newloc "/" then
      (if absolute then ctx.realhome else ctx.home) ++ newloc
    else newloc
  HTTPError_init ctx status [("Content-Type", "text/html"), ("Location", newloc)] ""

/-! ### Multipart form decoding -/

/-- Strip one level of surrounding double quotes (option values in a
content-type header). -/
def stripQuotes (s : String) : String :=
  match s.data with
  | '"' :: _ :: _ =>
    if s.data.getLast? == some '"' then String.mk (s.data.drop 1).dropLast else s
  | _ => s

/-- Interface model of `multipart.parse_options_header`: the main value,
lowercased and stripped, plus the `key=value` options with lowercased keys
and unquoted values. -/
def parse_options_header (s : String) : String × List (String × String) :=
  match splitS ';' s with
  | [] => (toLowerS (trimS s), [])
  | t :: rest =>
    (toLowerS (trimS t),
     rest.foldl
       (fun opts seg =>
         match splitFirst '=' seg.data with
         | some (k, v) =>
           insertOver opts (toLowerS (trimS (String.mk k))) (stripQuotes (trimS (String.mk v)))
         | none => opts)
       [])

/-- Bytes as latin-1 characters, for boundary matching inside the multipart
stream. -/
def latin1 (bs : List Nat) : List Char := bs.map (fun b => Char.ofNat (b % 256))

/-- First occurrence of `sep` in `l`: the part before it and the part after
it. -/
def breakOnSeq (sep : List Char) : List Char → Option (List Char × List Char)
  | [] => if sep.isEmpty then some ([], []) else none
  | c :: t =>
    if sep.isPrefixOf (c :: t) then some ([], (c :: t).drop sep.length)
    else (breakOnSeq sep t).map (fun p => (c :: p.1, p.2))

/-- Split on every occurrence of `sep` (fuel-indexed; fuel equal to the input
length suffices because every separator occurrence consumes at least one
character). -/
def splitOnSeqAux (sep : List Char) : Nat → List Char → List (List Char)
  | 0, l => [l]
  | fuel + 1, l =>
    match breakOnSeq sep l with
    | none => [l]
    | some (a, b) => a :: splitOnSeqAux sep fuel b

/-- Split a character list on a (nonempty) separator sequence. -/
def splitOnSeq (sep l : List Char) : List (List Char) := splitOnSeqAux sep l.length l

/-- The in-memory buffering threshold of the `multipart` library
(`MultipartPart` spools parts larger than this to disk, and such parts are
classified as files). -/
def memfileLimit : Nat := 262144

/-- Is the part fully buffered in memory (`MultipartPart.is_buffered`)? -/
def isBuffered (p : MultipartPartV) : Bool := p.content.length ≤ memfileLimit

/-- Python truthiness of the part's filename. -/
def filenameTruthy (p : MultipartPartV) : Bool :=
  match p.filename with
  | some s => !(strEq s "")
  | none => false

/-- Parse the header block of one multipart part into a `MultipartPartV`:
locate the `Content-Disposition` line and take its `name` and `filename`
options. -/
def parsePartChunk (chunk : List Char) : Except PyExc MultipartPartV :=
  if ('\r' :: '\n' :: []).isPrefixOf chunk then
    let chunk := chunk.drop 2
    match breakOnSeq ('\r' :: '\n' :: '\r' :: '\n' :: []) chunk with
    | none => Except.error (PyExc.multipartError "Part missing header/body separator.")
    | some (headerSec, bodySec) =>
      let body :=
        if bodySec.length ≥ 2 then bodySec.dropLast.dropLast else bodySec
      let lines := splitOnSeq ('\r' :: '\n' :: []) headerSec
      let disp := lines.findSome? (fun line =>
        match splitFirst ':' line with
        | some (k, v) =>
          if strEq (toLowerS (trimS (String.mk k))) "content-disposition" then
            some (parse_options_header (String.mk v))
          else none
        | none => none)
      match disp with
      | none => Except.error (PyExc.multipartError "Content-Disposition header is missing.")
      | some (_, opts) =>
        match assocFind opts "name" with
        | none => Except.error (PyExc.multipartError "No name option in Content-Disposition.")
        | some nm =>
          Except.ok ⟨nm, assocFind opts "filename", body.map Char.toNat⟩
  else Except.error (PyExc.multipartError "Unexpected byte after boundary.")

/-- Interface model of the external `multipart` library's `MultipartParser`:
split the stream at `--boundary` delimiters, discard the preamble and the
closing chunk, and parse each remaining chunk into a part.  Malformed input
raises `MultipartError`, as the library does.  (The library's incremental
buffering and size limits are not modelled; no claim depends on the parser's
internals.) -/
def MultipartParserRun (stream : List Nat) (boundary : String) :
    Except PyExc (List MultipartPartV) :=
  let s := latin1 stream
  let delim := '-' :: '-' :: boundary.data
  match splitOnSeq delim s with
  | [] => Except.error (PyExc.multipartError "Stream does not contain boundary.")
  | [_] => Except.error (PyExc.multipartError "Stream does not contain boundary.")
  | _preamble :: rest => (dropLastL rest).mapM parsePartChunk

/-- The text value of a non-file part (`MultipartPart.value`): the raw bytes
decoded with the part charset — modelled for UTF-8, the module default; an
ill-formed payload raises `UnicodeDecodeError`, which no handler in
webapi.py catches. -/
def partValue (p : MultipartPartV) : Except PyExc String :=
  match utf8Decode p.content with
  | some cs => Except.ok (String.mk cs)
  | none => Except.error PyExc.unicodeDecodeError

/-- Translation of `flatten_list` (webapi.py lines 537-551): collapse
one-element value lists to the bare value, keep every other list as is. -/
def flatten_list {α : Type} (data : List (String × List α)) : List (String × Flat α) :=
  data.map (fun p =>
    match p.2 with
    | [v] => (p.1, Flat.scalar v)
    | l => (p.1, Flat.many l))

/-- Translation of `parse_multipart_data` (webapi.py lines 453-484): classify
each part as a file (it declares a filename or is not fully buffered) or a
form field, accumulate per name in encounter order, apply `flatten_list` to
both collections, and wrap file parts in `MultipartPartWrapper`. -/
def parse_multipart_data (stream : List Nat) (boundary : String) :
    Except PyExc (List (String × Flat String) × List (String × Flat MultipartPartWrapperV)) :=
  match MultipartParserRun stream boundary with
  | Except.error e => Except.error e
  | Except.ok parts =>
    let acc := parts.foldlM
      (fun (fg : List (String × List MultipartPartV) × List (String × List String)) p =>
        if filenameTruthy p || !isBuffered p then
          Except.ok (multiAdd fg.1 p.name p, fg.2)
        else
          match partValue p with
          | Except.ok v => Except.ok (fg.1, multiAdd fg.2 p.name v)
          | Except.error e => Except.error e)
      ([], [])
    match acc with
    | Except.error e => Except.error e
    | Except.ok (files, forms) =>
      let forms := flatten_list forms
      let files := flatten_list files
      let files := files.map (fun p =>
        match p.2 with
        | Flat.scalar part => (p.1, Flat.scalar (MultipartPartWrapperV.mk part))
        | Flat.many l => (p.1, Flat.many (l.map MultipartPartWrapperV.mk)))
      Except.ok (forms, files)

/-- Translation of `custom_parse_form_data` (webapi.py lines 487-534): only
POST and PUT requests are decoded; a missing content type, a non-multipart
content type, or a `multipart/form-data` content type without a boundary is a
`MultipartError`; in strict mode a `MultipartError` propagates (after closing
any file parts opened so far — in every error branch here that collection is
still empty), otherwise it is swallowed and the empty pair is returned.
Exceptions other than `MultipartError` (the `ValueError` from the
content-length conversion, `UnicodeDecodeError` from a part value) always
propagate. -/
def custom_parse_form_data (environ : Environ) (strict : Bool) :
    Except PyExc (List (String × Flat String) × List (String × Flat MultipartPartWrapperV)) :=
  let inner :=
    if !(memStr ["POST", "PUT"] (toUpperS environ.requestMethod)) then
      Except.error (PyExc.multipartError "Request method other than POST or PUT.")
    else
      match pyInt (environ.contentLength.getD "-1") with
      | none => Except.error (PyExc.valueError "invalid literal for int()")
      | some _ =>
        let content_type := environ.contentType.getD ""
        if strEq content_type "" then
          Except.error (PyExc.multipartError "Missing Content-Type header.")
        else
          let pr := parse_options_header content_type
          if strEq pr.1 "multipart/form-data" then
            let boundary := (assocFind pr.2 "boundary").getD ""
            if strEq boundary "" then
              Except.error (PyExc.multipartError "No boundary for multipart/form-data.")
            else parse_multipart_data environ.wsgiInput boundary
          else Except.error (PyExc.multipartError "Unsupported content type.")
  match inner with
  | Except.error (PyExc.multipartError m) =>
    if strict then Except.error (PyExc.multipartError m) else Except.ok ([], [])
  | r => r

/-! ### The request-context accessors: `data`, `rawinput`, `cookies` -/

/-- Translation of `data` (webapi.py lines 603-611): read the body once and
cache it — the whole stream when the transfer is chunked, otherwise
`Content-Length` bytes (missing or invalid length reads zero; a negative
length, like Python `stream.read` with a negative argument, reads
everything). -/
def dataFn (ctx : Ctx) : Ctx × List Nat :=
  match ctx.cachedData with
  | some d => (ctx, d)
  | none =>
    let chunked :=
      match ctx.env.transferEncoding with
      | some t => strEq t "chunked"
      | none => false
    let d :=
      if chunked then ctx.env.wsgiInput
      else
        let cl := intget ctx.env.contentLength 0
        if cl < 0 then ctx.env.wsgiInput else ctx.env.wsgiInput.take cl.toNat
    ({ ctx with cachedData := some d }, d)

/-- Lift the string-valued field collections into the merged namespace. -/
def entriesOfStr (d : List (String × Flat String)) : FieldMap :=
  d.map (fun p =>
    match p.2 with
    | Flat.scalar s => (p.1, FieldEntry.str s)
    | Flat.many l => (p.1, FieldEntry.strs l))

/-- Lift the file-valued field collections into the merged namespace. -/
def entriesOfFile (d : List (String × Flat MultipartPartWrapperV)) : FieldMap :=
  d.map (fun p =>
    match p.2 with
    | Flat.scalar w => (p.1, FieldEntry.file w)
    | Flat.many l => (p.1, FieldEntry.files l))

/-- The `flatten_list (parse_qs …)` pipeline both the query-string side and
the urlencoded-body side of `rawinput` run. -/
def qsFields (s : String) : FieldMap := entriesOfStr (flatten_list (parse_qs s))

/-- Translation of `rawinput` (webapi.py lines 554-586).  Write-style methods
with a multipart content type go through `custom_parse_form_data` in strict
mode, reusing the cached result when it is non-empty (`if not post_req`); of
its exceptions only `IndexError` is degraded to an empty mapping — everything
else propagates.  Other bodies are read via `data` and decoded as UTF-8
urlencoded text (an ill-formed body propagates `UnicodeDecodeError`).  The
GET side parses the query string, and `dictadd` merges the two with the POST
side taking precedence. -/
def rawinput (ctx : Ctx) (methodArg : Option String) : Ctx × Except PyExc FieldMap :=
  let method := match methodArg with
    | none => "both"
    | some m => if strEq m "" then "both" else m
  let env := ctx.env
  let lower := toLowerS method
  let postStep : Ctx × Except PyExc FieldMap :=
    if memStr ["both", "post", "put", "patch"] lower &&
        memStr ["POST", "PUT", "PATCH"] env.requestMethod then
      if startsWithS (toLowerS (env.contentType.getD "")) "multipart/" then
        let cached :=
          match ctx.fieldstorage with
          | some fs => if fs = ([] : FieldMap) then none else some fs
          | none => none
        match cached with
        | some fs => (ctx, Except.ok fs)
        | none =>
          match custom_parse_form_data env true with
          | Except.ok fs =>
            let post := dictadd (entriesOfStr fs.1) (entriesOfFile fs.2)
            ({ ctx with fieldstorage := some post }, Except.ok post)
          | Except.error PyExc.indexError => (ctx, Except.ok [])
          | Except.error e => (ctx, Except.error e)
      else
        let step := dataFn ctx
        match utf8Decode step.2 with
        | none => (step.1, Except.error PyExc.unicodeDecodeError)
        | some cs => (step.1, Except.ok (qsFields (String.mk cs)))
    else (ctx, Except.ok [])
  match postStep with
  | (ctx3, Except.error e) => (ctx3, Except.error e)
  | (ctx3, Except.ok post_req) =>
    let get_req :=
      if memStr ["both", "get"] lower then qsFields (env.queryString.getD "")
      else []
    (ctx3, Except.ok (dictadd get_req post_req))

/-- Translation of `cookies` (webapi.py lines 697-716): parse and cache the
inbound cookie header, then validate with `storify`; on its `KeyError` the
code *constructs* a `BadRequest` (mutating the context status and headers)
but what it raises is a bare `StopIteration`. -/
def cookies (ctx : Ctx) (requireds : List String) (defaults : List (String × String)) :
    Ctx × Except PyExc (List (String × String)) :=
  let step :=
    match ctx.parsedCookies with
    | some p => (ctx, p)
    | none =>
      let p := parse_cookies (ctx.env.httpCookie.getD "")
      ({ ctx with parsedCookies := some p }, p)
  match storify step.2 requireds defaults with
  | Except.ok st => (step.1, Except.ok st)
  | Except.error PyExc.keyError =>
    (match badrequest_mk step.1 none with
     | Except.ok (ctx2, _) => (ctx2, Except.error PyExc.stopIteration)
     | Except.error e => (step.1, Except.error e))
  | Except.error e => (step.1, Except.error e)

/-- Does an `Except` result carry a propagating `HTTPError` exception (an
HTTP outcome used as the control-flow signal)? -/
def isHTTPOutcomeErr {α : Type} (r : Except PyExc α) : Bool :=
  match r with
  | Except.error (PyExc.httpError _ _) => true
  | _ => false

/-! ### Concrete request contexts used to instantiate the theorems -/

/-- A POST declaring `multipart/form-data` without a boundary parameter. -/
def ctxNoBoundary : Ctx :=
  { env := { requestMethod := "POST", contentType := some "multipart/form-data" } }

/-- A PUT declaring an unsupported multipart subtype. -/
def ctxMultipartMixed : Ctx :=
  { env := { requestMethod := "PUT", contentType := some "multipart/mixed; boundary=z" } }

/-- A request with no inbound cookie header. -/
def ctxNoCookie : Ctx := { env := { requestMethod := "GET" } }

/-- A request whose cookie header carries only `a=1`. -/
def ctxCookieA : Ctx := { env := { requestMethod := "GET", httpCookie := some "a=1" } }

/-- A DELETE request (no body decode applies). -/
def envDELETE : Environ := { requestMethod := "DELETE" }

/-- A GET request declaring a well-formed multipart content type. -/
def envGETmp : Environ :=
  { requestMethod := "GET", contentType := some "multipart/form-data; boundary=x" }

/-- A PATCH request declaring a well-formed multipart content type. -/
def envPATCHmp : Environ :=
  { requestMethod := "PATCH", contentType := some "multipart/form-data; boundary=x" }

/-- A POST declaring `multipart/form-data` with no boundary (for the strict /
non-strict decoder witness). -/
def envNoBoundary : Environ :=
  { requestMethod := "POST", contentType := some "multipart/form-data" }

/-- A urlencoded POST with query string `a=1` and body `a=2&b=3`. -/
def ctxMergePost : Ctx :=
  { env := { requestMethod := "POST",
             contentType := some "application/x-www-form-urlencoded",
             contentLength := some "7",
             queryString := some "a=1",
             wsgiInput := [97, 61, 50, 38, 98, 61, 51] } }

/-- A POST whose single body byte `0xFF` is not valid UTF-8. -/
def ctxBadUtf8 : Ctx :=
  { env := { requestMethod := "POST", contentLength := some "1", wsgiInput := [255] } }

/-- A request context mounted so that the current request path is `/app/x`. -/
def ctxAppX : Ctx := { env := { requestMethod := "GET" }, path := "/app/x" }

/-- A context with a duplicate outbound header already queued. -/
def ctxDupHeader : Ctx := { env := { requestMethod := "GET" }, headers := [("X", "1")] }

/-! ## Shared lemmas -/

theorem strEq_iff {a b : String} : strEq a b = true ↔ a = b := by
  constructor
  · intro h
    cases a with
    | mk da =>
      cases b with
      | mk db =>
        simp only [strEq] at h
        exact congrArg String.mk (by simpa using h)
  · intro h
    subst h
    simp [strEq]

theorem assocFind_append {α : Type} (d1 d2 : List (String × α)) (k : String) :
    assocFind (d1 ++ d2) k =
      match assocFind d1 k with
      | some v => some v
      | none => assocFind d2 k := by
  induction d1 with
  | nil => simp [assocFind]
  | cons p t ih =>
    by_cases h : strEq p.1 k = true
    · simp [assocFind, h]
    · simp only [Bool.not_eq_true] at h
      simp [assocFind, h, ih]

theorem assocFind_map_override {α : Type} (d1 d2 : List (String × α)) (k : String) :
    assocFind (d1.map (fun p =>
      match assocFind d2 p.1 with
      | some v => (p.1, v)
      | none => p)) k =
      match assocFind d1 k with
      | none => none
      | some v =>
        match assocFind d2 k with
        | some w => some w
        | none => some v := by
  induction d1 with
  | nil => simp [assocFind]
  | cons p t ih =>
    by_cases h : strEq p.1 k = true
    · have hk : p.1 = k := strEq_iff.mp h
      cases hd2 : assocFind d2 p.1 with
      | none =>
        simp [assocFind, h, hk ▸ hd2, hd2]
      | some w =>
        simp [assocFind, h, hk ▸ hd2, hd2]
    · simp only [Bool.not_eq_true] at h
      cases hd2 : assocFind d2 p.1 with
      | none => simp [assocFind, h, hd2, ih]
      | some w => simp [assocFind, h, hd2, ih]

theorem assocFind_filter_keep {α : Type} (d1 d2 : List (String × α)) (k : String)
    (h : assocFind d1 k = none) :
    assocFind (d2.filter (fun p => (assocFind d1 p.1).isNone)) k = assocFind d2 k := by
  induction d2 with
  | nil => simp [assocFind]
  | cons q t ih =>
    by_cases hq : strEq q.1 k = true
    · have hk : q.1 = k := strEq_iff.mp hq
      have : (assocFind d1 q.1).isNone = true := by rw [hk, h]; rfl
      simp [List.filter, this, assocFind, hq]
    · simp only [Bool.not_eq_true] at hq
      cases hkeep : (assocFind d1 q.1).isNone with
      | true => simp [List.filter, hkeep, assocFind, hq, ih]
      | false => simp [List.filter, hkeep, assocFind, hq, ih]

/-- Lookup through `dictadd`: the second mapping wins, the first fills in. -/
theorem assocFind_dictadd {α : Type} (d1 d2 : List (String × α)) (k : String) :
    assocFind (dictadd d1 d2) k =
      match assocFind d2 k with
      | some v => some v
      | none => assocFind d1 k := by
  unfold dictadd
  rw [assocFind_append, assocFind_map_override]
  cases h1 : assocFind d1 k with
  | some v =>
    cases h2 : assocFind d2 k with
    | some w => rfl
    | none => rfl
  | none =>
    rw [assocFind_filter_keep d1 d2 k h1]
    cases h2 : assocFind d2 k with
    | some w => rfl
    | none => rfl

/-- A `header` call with safe strings and `unique := False` appends. -/
theorem header_ok (ctx : Ctx) (hdr value : String)
    (h : (containsC hdr '\n' || containsC hdr '\r' ||
          containsC value '\n' || containsC value '\r') = false) :
    header ctx hdr value false =
      Except.ok { ctx with headers := ctx.headers ++ [(hdr, value)] } := by
  simp [header, safestr, h]

theorem containsC_append (a b : String) (c : Char) :
    containsC (a ++ b) c = (containsC a c || containsC b c) := by
  simp [containsC, String.data_append]

/-- `badrequest_mk` always succeeds: its fixed header is CR/LF-free. -/
theorem badrequest_mk_eq (c : Ctx) :
    badrequest_mk c none =
      Except.ok
        ({ c with
            status := "400 Bad Request"
            headers := c.headers ++ [("Content-Type", "text/html")] },
         ⟨"400 Bad Request", "bad request"⟩) := by
  have h := header_ok { c with status := "400 Bad Request" } "Content-Type" "text/html" (by rfl)
  simp [badrequest_mk, HTTPError_init, List.foldlM, h, Except.map]

/-- Folding the fast-path cookie step over all segments is folding the
insertion step over just the parseable segments. -/
theorem cookie_fold_filterMap (segs : List String) (acc : List (String × String)) :
    segs.foldl
      (fun d seg =>
        match splitFirst '=' seg.data with
        | some (k, v) => insertOver d (trimS (String.mk k)) (unquote (trimS (String.mk v)))
        | none => d) acc =
    (segs.filterMap
        (fun seg => (splitFirst '=' seg.data).map
          (fun kv => (trimS (String.mk kv.1), unquote (trimS (String.mk kv.2)))))).foldl
      (fun d p => insertOver d p.1 p.2) acc := by
  induction segs generalizing acc with
  | nil => rfl
  | cons s t ih =>
    cases h : splitFirst '=' s.data with
    | none => simp [List.foldl_cons, List.filterMap_cons, h, ih]
    | some kv =>
      obtain ⟨k, v⟩ := kv
      simp [List.foldl_cons, List.filterMap_cons, h, ih]

/-! ## Claim theorems -/

/-- C1: for every header name and value, if either string contains a
carriage-return or line-feed character, `header` fails with the
invalid-header `ValueError` — for every `unique` flag and every current
outbound header sequence, i.e. unconditionally, before and independently of
the unique-name check; the error result means no pair is appended to
`ctx.headers`. -/
theorem header_rejects_crlf (ctx : Ctx) (hdr value : String) (unique : Bool)
    (h : (containsC hdr '\n' || containsC hdr '\r' ||
          containsC value '\n' || containsC value '\r') = true) :
    header ctx hdr value unique =
      Except.error (PyExc.valueError "invalid characters in header") := by
  simp [header, safestr, h]

theorem header_rejects_crlf_witness :
    header ctxDupHeader "X" "v\r\nEvil: 1" true =
      Except.error (PyExc.valueError "invalid characters in header") :=
  header_rejects_crlf ctxDupHeader _ _ _ (by decide)

/-- C4 counterexample: on the quote-free header `"a=1 "` the code strips the
trailing whitespace from the value, while the claim (whitespace trimmed from
the key only, value whitespace preserved) would keep it. -/
theorem parse_cookies_value_strip_counterexample :
    parse_cookies "a=1 " = [("a", "1")] ∧
    parseCookiesClaimed "a=1 " = [("a", "1 ")] ∧
    parse_cookies "a=1 " ≠ parseCookiesClaimed "a=1 " := by
  refine ⟨rfl, rfl, ?_⟩
  decide

/-- C4 (amended): for every quote-free inbound cookie header, decoding splits
on `;`, splits each segment on the first `=` only, discards segments without
an `=`, and strips whitespace from **both** the key and the value before
percent-decoding the value (so percent-encoded whitespace in the value
survives the decode, but literal surrounding whitespace does not). -/
theorem parse_cookies_fast_path (s : String) (h : containsC s '"' = false) :
    parse_cookies s = parseCookiesFastSpec s := by
  unfold parse_cookies parseCookiesFastSpec
  rw [h]
  simp only [Bool.false_eq_true, if_false]
  exact cookie_fold_filterMap (splitS ';' s) []

theorem parse_cookies_fast_path_witness :
    containsC "a=%201; b=2 ; c" '"' = false ∧
    parse_cookies "a=%201; b=2 ; c" = parseCookiesFastSpec "a=%201; b=2 ; c" ∧
    parse_cookies "a=%201; b=2 ; c" = [("a", " 1"), ("b", "2")] :=
  ⟨by rfl, parse_cookies_fast_path _ (by rfl), by rfl⟩

/-- C6: a field name submitted with exactly one value is presented as a plain
scalar, and a field name with zero or two-or-more values is presented as a
sequence preserving submission order; in particular
`flatten_list {x: ["2"], y: ["1","2"]} = {x: "2", y: ["1","2"]}`. -/
theorem flatten_list_scalar_collapse :
    flatten_list [("x", ["2"]), ("y", ["1", "2"])] =
      [("x", Flat.scalar "2"), ("y", Flat.many ["1", "2"])] ∧
    ∀ (d : List (String × List String)) (k : String) (v : List String),
      (k, v) ∈ d →
        (∀ x, v = [x] → (k, Flat.scalar x) ∈ flatten_list d) ∧
        (v.length ≠ 1 → (k, Flat.many v) ∈ flatten_list d) := by
  refine ⟨rfl, ?_⟩
  intro d k v hmem
  constructor
  · intro x hx
    subst hx
    exact List.mem_map.mpr ⟨(k, [x]), hmem, rfl⟩
  · intro hlen
    refine List.mem_map.mpr ⟨(k, v), hmem, ?_⟩
    match v, hlen with
    | [], _ => rfl
    | [a], h => exact absurd rfl h
    | a :: b :: t, _ => rfl

theorem flatten_list_scalar_collapse_witness :
    ("x", Flat.scalar "2") ∈ flatten_list [("x", ["2"]), ("y", ["1", "2"])] ∧
    ("y", Flat.many ["1", "2"]) ∈ flatten_list [("x", ["2"]), ("y", ["1", "2"])] :=
  ⟨(flatten_list_scalar_collapse.2 _ "x" ["2"] (by simp)).1 "2" rfl,
   (flatten_list_scalar_collapse.2 _ "y" ["1", "2"] (by simp)).2 (by decide)⟩

/-- C2 counterexample: with no inbound cookies and a required cookie name,
`cookies` propagates a bare `StopIteration` to the caller — a raw failure
that is not the `BadRequest` HTTP outcome the claim promises (the
`BadRequest` is constructed for its side effects but never raised). -/
theorem cookies_missing_required_counterexample :
    (cookies ctxNoCookie ["name"] []).2 = Except.error PyExc.stopIteration ∧
    isHTTPOutcomeErr (cookies ctxNoCookie ["name"] []).2 = false :=
  ⟨rfl, rfl⟩

/-- C2 (amended): for every call to `cookies` with a required cookie name
absent from the parsed inbound cookie header, the context status is set to
`400 Bad Request` (by constructing a `BadRequest` outcome), but the exception
propagated to the caller is a bare `StopIteration`, not the `BadRequest`
itself. -/
theorem cookies_missing_required (ctx : Ctx) (requireds : List String)
    (defaults : List (String × String)) (r : String)
    (hc : ctx.parsedCookies = none)
    (hr : r ∈ requireds)
    (hm : assocFind (parse_cookies (ctx.env.httpCookie.getD "")) r = none) :
    (cookies ctx requireds defaults).2 = Except.error PyExc.stopIteration ∧
    (cookies ctx requireds defaults).1.status = "400 Bad Request" := by
  have hfind : ∃ x, requireds.find?
      (fun q => (assocFind (parse_cookies (ctx.env.httpCookie.getD "")) q).isNone) = some x := by
    cases hf : requireds.find?
        (fun q => (assocFind (parse_cookies (ctx.env.httpCookie.getD "")) q).isNone) with
    | some x => exact ⟨x, rfl⟩
    | none =>
      have := List.find?_eq_none.mp hf r hr
      rw [hm] at this
      exact absurd rfl this
  obtain ⟨x, hx⟩ := hfind
  constructor
  · simp [cookies, hc, storify, hx, badrequest_mk_eq]
  · simp [cookies, hc, storify, hx, badrequest_mk_eq]

theorem cookies_missing_required_witness :
    (cookies ctxCookieA ["sid"] [("theme", "dark")]).2 = Except.error PyExc.stopIteration ∧
    (cookies ctxCookieA ["sid"] [("theme", "dark")]).1.status = "400 Bad Request" :=
  cookies_missing_required ctxCookieA ["sid"] [("theme", "dark")] "sid" rfl (by simp) (by rfl)

/-- C3 counterexample: a write-style multipart request whose strict decode
fails (here: no boundary parameter) makes `rawinput` propagate the raw
`MultipartError` to its caller instead of degrading to an empty mapping —
only `IndexError` is caught on this path. -/
theorem rawinput_multipart_error_counterexample :
    (rawinput ctxNoBoundary none).2 =
      Except.error (PyExc.multipartError "No boundary for multipart/form-data.") :=
  rfl

/-- C3 (amended): for every write-style multipart request, when the strict
form decode invoked inside `rawinput` fails, only an `IndexError` is degraded
to an empty field mapping; any other exception — in particular every
`MultipartError` decode error — propagates to the caller of `rawinput`. -/
theorem rawinput_multipart_error_propagates (ctx : Ctx) (e : PyExc)
    (hfs : ctx.fieldstorage = none)
    (hm : memStr ["POST", "PUT", "PATCH"] ctx.env.requestMethod = true)
    (hct : startsWithS (toLowerS (ctx.env.contentType.getD "")) "multipart/" = true)
    (he : custom_parse_form_data ctx.env true = Except.error e)
    (hne : e ≠ PyExc.indexError) :
    (rawinput ctx none).2 = Except.error e := by
  have hboth : memStr ["both", "post", "put", "patch"] (toLowerS "both") = true := rfl
  cases e with
  | indexError => exact absurd rfl hne
  | keyError => simp [rawinput, hfs, hm, hct, he, hboth]
  | stopIteration => simp [rawinput, hfs, hm, hct, he, hboth]
  | unicodeDecodeError => simp [rawinput, hfs, hm, hct, he, hboth]
  | valueError m => simp [rawinput, hfs, hm, hct, he, hboth]
  | multipartError m => simp [rawinput, hfs, hm, hct, he, hboth]
  | httpError s b => simp [rawinput, hfs, hm, hct, he, hboth]

theorem rawinput_multipart_error_propagates_witness :
    (rawinput ctxMultipartMixed none).2 =
      Except.error (PyExc.multipartError "Unsupported content type.") :=
  rawinput_multipart_error_propagates ctxMultipartMixed _ rfl (by rfl) (by rfl) (by rfl)
    (by decide)

/-- C5 counterexample: in strict mode a GET request is not "skipped with an
empty result without error" — `custom_parse_form_data` raises a decode error;
and a PATCH request, which the claim says is decoded, is rejected the same
way (the decoder admits only POST and PUT). -/
theorem form_decode_method_counterexample :
    custom_parse_form_data envGETmp true =
      Except.error (PyExc.multipartError "Request method other than POST or PUT.") ∧
    custom_parse_form_data envPATCHmp true =
      Except.error (PyExc.multipartError "Request method other than POST or PUT.") :=
  ⟨rfl, rfl⟩

/-- C5 (amended): `custom_parse_form_data` attempts body decoding exactly for
the methods POST and PUT; for every other request method (PATCH included) it
raises a method decode error, which non-strict mode swallows — returning the
empty `({}, {})` pair without error — while strict mode propagates it.
(`rawinput` separately skips its body branch, without error, for methods
outside POST/PUT/PATCH.) -/
theorem form_decode_method_gate (environ : Environ) (strict : Bool)
    (h : memStr ["POST", "PUT"] (toUpperS environ.requestMethod) = false) :
    custom_parse_form_data environ strict =
      if strict then
        Except.error (PyExc.multipartError "Request method other than POST or PUT.")
      else Except.ok ([], []) := by
  cases strict with
  | true => simp [custom_parse_form_data, h]
  | false => simp [custom_parse_form_data, h]

theorem form_decode_method_gate_witness :
    custom_parse_form_data envDELETE true =
      Except.error (PyExc.multipartError "Request method other than POST or PUT.") ∧
    custom_parse_form_data envDELETE false = Except.ok ([], []) :=
  ⟨(form_decode_method_gate envDELETE true (by rfl)).trans (by rfl),
   (form_decode_method_gate envDELETE false (by rfl)).trans (by rfl)⟩

/-- C7: under method `"both"`, `rawinput` on a urlencoded write-style request
returns the query-string fields merged with the body fields through
`dictadd`, and for every key the lookup yields the POST-derived value when
the key is present there, falling back to the GET-derived value otherwise —
so POST wins every collision and keys present on only one side keep their
single value. -/
theorem rawinput_both_merge (ctx : Ctx) (cs : List Char)
    (hm : memStr ["POST", "PUT", "PATCH"] ctx.env.requestMethod = true)
    (hct : startsWithS (toLowerS (ctx.env.contentType.getD "")) "multipart/" = false)
    (hd : utf8Decode (dataFn ctx).2 = some cs) :
    (rawinput ctx none).2 =
      Except.ok (dictadd (qsFields (ctx.env.queryString.getD "")) (qsFields (String.mk cs))) ∧
    ∀ k,
      assocFind (dictadd (qsFields (ctx.env.queryString.getD "")) (qsFields (String.mk cs))) k =
        Option.orElse (assocFind (qsFields (String.mk cs)) k)
          (fun _ => assocFind (qsFields (ctx.env.queryString.getD "")) k) := by
  constructor
  · have hboth : memStr ["both", "post", "put", "patch"] (toLowerS "both") = true := rfl
    have hget : memStr ["both", "get"] (toLowerS "both") = true := rfl
    simp [rawinput, hboth, hget, hm, hct, hd]
  · intro k
    rw [assocFind_dictadd (qsFields (ctx.env.queryString.getD ""))
      (qsFields (String.mk cs)) k]
    cases assocFind (qsFields (String.mk cs)) k with
    | some v => rfl
    | none => rfl

theorem rawinput_both_merge_witness :
    (rawinput ctxMergePost none).2 =
      Except.ok (dictadd (qsFields "a=1") (qsFields "a=2&b=3")) ∧
    assocFind (dictadd (qsFields "a=1") (qsFields "a=2&b=3")) "a" =
      some (FieldEntry.str "2") ∧
    assocFind (dictadd (qsFields "a=1") (qsFields "a=2&b=3")) "b" =
      some (FieldEntry.str "3") := by
  have h := rawinput_both_merge ctxMergePost "a=2&b=3".data (by rfl) (by rfl) (by rfl)
  exact ⟨h.1, (h.2 "a").trans (by rfl), (h.2 "b").trans (by rfl)⟩

/-- C8: for every write-style request declaring `multipart/form-data` without
a boundary parameter, strict decoding fails with the boundary decode error
(at that point no file part has been opened, so the release loop has nothing
to close) while non-strict decoding of the same input returns the empty
`({}, {})` pair without raising. -/
theorem multipart_missing_boundary (environ : Environ) (strict : Bool) (ct : String) (n : Int)
    (hm : memStr ["POST", "PUT"] (toUpperS environ.requestMethod) = true)
    (hcl : pyInt (environ.contentLength.getD "-1") = some n)
    (hct : environ.contentType = some ct)
    (hne : strEq ct "" = false)
    (hmp : strEq (parse_options_header ct).1 "multipart/form-data" = true)
    (hb : strEq ((assocFind (parse_options_header ct).2 "boundary").getD "") "" = true) :
    custom_parse_form_data environ strict =
      if strict then
        Except.error (PyExc.multipartError "No boundary for multipart/form-data.")
      else Except.ok ([], []) := by
  cases strict with
  | true => simp [custom_parse_form_data, hm, hcl, hct, hne, hmp, hb]
  | false => simp [custom_parse_form_data, hm, hcl, hct, hne, hmp, hb]

theorem multipart_missing_boundary_witness :
    custom_parse_form_data envNoBoundary true =
      Except.error (PyExc.multipartError "No boundary for multipart/form-data.") ∧
    custom_parse_form_data envNoBoundary false = Except.ok ([], []) :=
  ⟨(multipart_missing_boundary envNoBoundary true "multipart/form-data" (-1)
      rfl rfl rfl rfl rfl rfl).trans (by rfl),
   (multipart_missing_boundary envNoBoundary false "multipart/form-data" (-1)
      rfl rfl rfl rfl rfl rfl).trans (by rfl)⟩

/-- C10: for every write-style request with a non-multipart content type
whose body bytes are not valid UTF-8, `rawinput` raises the text-decoding
failure instead of returning a field mapping — the lenient degrade-to-empty
behaviour does not cover this branch. -/
theorem rawinput_invalid_utf8 (ctx : Ctx)
    (hm : memStr ["POST", "PUT", "PATCH"] ctx.env.requestMethod = true)
    (hct : startsWithS (toLowerS (ctx.env.contentType.getD "")) "multipart/" = false)
    (hd : utf8Decode (dataFn ctx).2 = none) :
    (rawinput ctx none).2 = Except.error PyExc.unicodeDecodeError := by
  have hboth : memStr ["both", "post", "put", "patch"] (toLowerS "both") = true := rfl
  simp [rawinput, hboth, hm, hct, hd]

theorem rawinput_invalid_utf8_witness :
    (rawinput ctxBadUtf8 none).2 = Except.error PyExc.unicodeDecodeError :=
  rawinput_invalid_utf8 ctxBadUtf8 (by rfl) (by rfl) (by rfl)

/-- C9: the redirect Location is the caller-supplied URL joined against the
current request path, and the application base URL — `home`, or `realhome`
when `absolute` is requested — is prepended exactly when the joined result
begins with `/`; the two redirect headers are appended to the outbound
sequence and the status line is set.  (The hypothesis rules out CR/LF in the
resulting location, which would instead raise the header guard's
`ValueError`.) -/
theorem redirect_location_resolution (ctx : Ctx) (url : String) (absolute : Bool)
    (hsafe : (containsC ctx.home '\n' || containsC ctx.home '\r' ||
              containsC ctx.realhome '\n' || containsC ctx.realhome '\r' ||
              containsC (urljoin ctx.path url) '\n' ||
              containsC (urljoin ctx.path url) '\r') = false) :
    Redirect_mk ctx url "301 Moved Permanently" absolute =
      Except.ok
        ({ ctx with
            status := "301 Moved Permanently"
            headers := ctx.headers ++
              [("Content-Type", "text/html"),
               ("Location",
                if startsWithS (urljoin ctx.path url) "/" then
                  (if absolute then ctx.realhome else ctx.home) ++ urljoin ctx.path url
                else urljoin ctx.path url)] },
         ⟨"301 Moved Permanently", ""⟩) := by
  simp only [Bool.or_eq_false_iff] at hsafe
  obtain ⟨⟨⟨⟨⟨h1, h2⟩, h3⟩, h4⟩, h5⟩, h6⟩ := hsafe
  have hnl : containsC
      (if startsWithS (urljoin ctx.path url) "/" then
        (if absolute then ctx.realhome else ctx.home) ++ urljoin ctx.path url
      else urljoin ctx.path url) '\n' = false := by
    cases hstart : startsWithS (urljoin ctx.path url) "/" with
    | false => simpa [hstart] using h5
    | true => cases absolute <;> simp [hstart, containsC_append, h1, h3, h5]
  have hcr : containsC
      (if startsWithS (urljoin ctx.path url) "/" then
        (if absolute then ctx.realhome else ctx.home) ++ urljoin ctx.path url
      else urljoin ctx.path url) '\r' = false := by
    cases hstart : startsWithS (urljoin ctx.path url) "/" with
    | false => simpa [hstart] using h6
    | true => cases absolute <;> simp [hstart, containsC_append, h2, h4, h6]
  have hCT := header_ok { ctx with status := "301 Moved Permanently" }
    "Content-Type" "text/html" (by rfl)
  have hLoc := header_ok
    { ctx with
        status := "301 Moved Permanently"
        headers := ctx.headers ++ [("Content-Type", "text/html")] }
    "Location"
    (if startsWithS (urljoin ctx.path url) "/" then
      (if absolute then ctx.realhome else ctx.home) ++ urljoin ctx.path url
    else urljoin ctx.path url)
    (by rw [hnl, hcr]; rfl)
  simp [Redirect_mk, HTTPError_init, List.foldlM, hCT, hLoc, Except.map,
    Bind.bind, Except.bind, Pure.pure, Except.pure]

theorem redirect_location_resolution_witness :
    Redirect_mk ctxAppX "y" "301 Moved Permanently" false =
      Except.ok
        ({ ctxAppX with
            status := "301 Moved Permanently"
            headers := [("Content-Type", "text/html"), ("Location", "/app/y")] },
         ⟨"301 Moved Permanently", ""⟩) :=
  (redirect_location_resolution ctxAppX "y" false (by rfl)).trans (by rfl)

end WebPy
